import Mathlib

/-!
Verification of the hdfmap address-indexing and namespace-resolution engine.

The definitions below are a shallow embedding of `hdfmap_class.py` and
`nexus.py`: Python dicts become association lists with insertion-order
semantics, the HDF hierarchy seen through h5py becomes the `HTree` type
(including broken and soft links), and the fallible spots of the Python code
(`classes[name][0]`, `self.datasets[v]`, `shape[0]`) return `Except`.
-/

/-- HDF address separator, mirroring SEP in hdfmap_class.py. -/
def SEP : String := "/"

/-- Python dict lookup on an association list; keys are unique in dicts built by
the operations below, and the first binding wins. -/
def dlookup {α : Type} : List (String × α) → String → Option α
  | [], _ => none
  | p :: rest, k => if p.1 == k then some p.2 else dlookup rest k

/-- Python dict membership test. -/
def dcontains {α : Type} (d : List (String × α)) (k : String) : Bool :=
  (dlookup d k).isSome

/-- Python dict assignment d[k] = v: replace the binding in place, keeping its
position, or append a new binding at the end. -/
def dinsert {α : Type} : List (String × α) → String → α → List (String × α)
  | [], k, v => [(k, v)]
  | p :: rest, k, v => if p.1 == k then (k, v) :: rest else p :: dinsert rest k v

/-- The classes update of HdfMap._store_group: append v to classes[k], creating a
one-element list when k is absent. -/
def dappend : List (String × List String) → String → String → List (String × List String)
  | [], k, v => [(k, [v])]
  | p :: rest, k, v => if p.1 == k then (p.1, p.2 ++ [v]) :: rest else p :: dappend rest k v

/-- Python dict merge as in a double-star expansion: fold the right dict's
bindings into the left one, the later binding winning each collision. -/
def dmerge {α : Type} (a b : List (String × α)) : List (String × α) :=
  b.foldl (fun acc p => dinsert acc p.1 p.2) a

/-- Keys of an association list are pairwise distinct (always true of a Python
dict). -/
def nodupKeys {α : Type} (d : List (String × α)) : Prop :=
  (d.map Prod.fst).Nodup

/-- Python str.split with a single-character separator, acting on the character
list of the string. -/
def splitChars (sep : Char) : List Char → List (List Char)
  | [] => [[]]
  | c :: cs =>
    match splitChars sep cs with
    | [] => [[]]
    | h :: t => if c == sep then [] :: h :: t else (c :: h) :: t

/-- address2name from hdfmap_class.py: replace every dot with an underscore, then
take the last '/'-separated segment.  The source's 'value' conditional reads
`address.split(SEP)[-1] if name == 'value' else name`, i.e. both branches return
the last segment; it is kept here exactly as written. -/
def address2name (address : String) : String :=
  let address := String.mk (address.data.map (fun c => if c == '.' then '_' else c))
  let parts := splitChars '/' address.data
  let name := String.mk (parts.getLastD [])
  if name == "value" then String.mk (parts.getLastD []) else name

/-- The detector-qualified compound name built in _store_dataset from
address.split(SEP)[-2] and the dataset name.  Python's negative index raises when
the split has fewer than two parts; traversal addresses always contain SEP. -/
def det_name (address name : String) : String :=
  let parts := splitChars '/' address.data
  String.mk (parts.getD (parts.length - 2) []) ++ "_" ++ name

/-- A sibling list of the entries of an HDF group as h5py presents them during
traversal: each child key resolves to a broken link (get returns None), to a
dataset (with its shape, attributes, and whether its link is a SoftLink), or to
a subgroup with its own children. -/
inductive HTree where
  | cnil : HTree
  | cbroken (key : String) (rest : HTree) : HTree
  | cdataset (key : String) (shape : List Nat) (attrs : List (String × String))
      (soft : Bool) (rest : HTree) : HTree
  | cgroup (key : String) (attrs : List (String × String)) (kids : HTree) (rest : HTree) : HTree

/-- Appending two sibling lists, used to state position-insensitive facts about
traversal. -/
def HTree.append : HTree → HTree → HTree
  | .cnil, t => t
  | .cbroken k rest, t => .cbroken k (rest.append t)
  | .cdataset k sh a so rest, t => .cdataset k sh a so (rest.append t)
  | .cgroup k a kids rest, t => .cgroup k a kids (rest.append t)

/-- The HdfMap state: the dictionaries created in HdfMap.__init__ (the filename
and debug logger fields are I/O bookkeeping and are omitted).  Group records are
(nx_class, name, attrs, child dataset keys); dataset records are
(name, size, shape, attrs). -/
structure HdfMap where
  groups : List (String × (String × String × List (String × String) × List String))
  classes : List (String × List String)
  datasets : List (String × (String × Nat × List Nat × List (String × String)))
  arrays : List (String × String)
  values : List (String × String)
  scannables : List (String × String)
  combined : List (String × String)
  image_data : List (String × String)
  default_image_address : Option String

/-- HdfMap.__init__: every dictionary empty and no default image address. -/
def HdfMap.init : HdfMap :=
  { groups := [], classes := [], datasets := [], arrays := [], values := [],
    scannables := [], combined := [], image_data := [], default_image_address := none }

/-- The NX_class determination of _store_group: the attribute's value when
present (decoding a byte string leaves its content unchanged), defaulting to
"Group"; the OSError fallback concerns unreadable file objects outside this
model. -/
def nxClassOf (attrs : List (String × String)) : String :=
  match dlookup attrs "NX_class" with
  | some c => c
  | none => "Group"

/-- The keys of a group's children that resolve to datasets (soft-linked
datasets included, broken links excluded), as _store_group collects them. -/
def datasetKeys : HTree → List String
  | .cnil => []
  | .cbroken _ rest => datasetKeys rest
  | .cdataset key _ _ _ rest => key :: datasetKeys rest
  | .cgroup _ _ _ rest => datasetKeys rest

/-- HdfMap._store_group: record the group, register its address in classes under
both its name and its NX class, and return the NX class. -/
def store_group (m : HdfMap) (address name : String) (gattrs : List (String × String))
    (kids : HTree) : HdfMap × String :=
  let nx_class := nxClassOf gattrs
  ({ m with
      groups := dinsert m.groups address (nx_class, name, gattrs, datasetKeys kids),
      classes := dappend (dappend m.classes name address) nx_class address },
   nx_class)

/-- HdfMap._store_dataset: record the dataset (its numpy size is the product of
the shape) and classify by dimensionality: ndim >= 3 registers image_data under
the bare and the detector-qualified name and arrays under name and altname;
1 <= ndim <= 2 registers arrays under name and altname; ndim = 0 registers
values under name and altname. -/
def store_dataset (m : HdfMap) (address name altname : String) (shape : List Nat)
    (attrs : List (String × String)) : HdfMap :=
  let size := shape.foldl (fun a b => a * b) 1
  if 3 ≤ shape.length then
    { m with
        datasets := dinsert m.datasets address (name, size, shape, attrs),
        image_data := dinsert (dinsert m.image_data name address) (det_name address name) address,
        arrays := dinsert (dinsert m.arrays name address) altname address }
  else if 0 < shape.length then
    { m with
        datasets := dinsert m.datasets address (name, size, shape, attrs),
        arrays := dinsert (dinsert m.arrays name address) altname address }
  else
    { m with
        datasets := dinsert m.datasets address (name, size, shape, attrs),
        values := dinsert (dinsert m.values name address) altname address }

/-- The recursion guard of _populate, parsed as
recursive and ((key in groups or nx_class in groups) if groups else True):
a missing or empty (falsy) filter always passes. -/
def filterPass (filter : Option (List String)) (key nx_class : String) : Bool :=
  match filter with
  | none => true
  | some [] => true
  | some gs => gs.contains key || gs.contains nx_class

/-- HdfMap._populate over a sibling list: skip broken links, store groups and
recurse into their children when allowed (the recursive call passes no group
filter, exactly as in the source), and store datasets whose links are not soft
links.  altname is derived from the local_name attribute when present. -/
def popChildren (m : HdfMap) (cs : HTree) (top : String) (recursive : Bool)
    (filter : Option (List String)) : HdfMap :=
  match cs with
  | .cnil => m
  | .cbroken _ rest => popChildren m rest top recursive filter
  | .cdataset key shape attrs soft rest =>
    let address := top ++ SEP ++ key
    let name := address2name address
    let altname := match dlookup attrs "local_name" with
      | some ln => address2name ln
      | none => name
    let m' := if soft then m else store_dataset m address name altname shape attrs
    popChildren m' rest top recursive filter
  | .cgroup key gattrs kids rest =>
    let address := top ++ SEP ++ key
    let name := address2name address
    let sg := store_group m address name gattrs kids
    let m' := if recursive && filterPass filter key sg.2 then
        popChildren sg.1 kids address recursive none
      else sg.1
    popChildren m' rest top recursive filter

/-- HdfMap.populate: traverse the file's root children with top_address = '',
recursion enabled and no group filter (filename bookkeeping omitted). -/
def populate (m : HdfMap) (root : HTree) : HdfMap :=
  popChildren m root "" true none

/-- HdfMap.generate_combined: combined is the double-star merge of values,
arrays and scannables, in that order. -/
def generate_combined (m : HdfMap) : HdfMap :=
  { m with combined := dmerge (dmerge m.values m.arrays) m.scannables }

/-- The dict comprehension of generate_scannables: keep the arrays entries whose
dataset record's size equals array_size; a missing datasets record raises
KeyError in Python. -/
def scanFilter (m : HdfMap) (array_size : Nat) :
    List (String × String) → Except String (List (String × String))
  | [] => .ok []
  | p :: rest =>
    match dlookup m.datasets p.2 with
    | none => .error "KeyError"
    | some (_, size, _, _) =>
      match scanFilter m array_size rest with
      | .error e => .error e
      | .ok r => .ok (if size == array_size then p :: r else r)

/-- HdfMap.generate_scannables: set scannables to the arrays entries matching
array_size, then rebuild combined. -/
def generate_scannables (m : HdfMap) (array_size : Nat) : Except String HdfMap :=
  match scanFilter m array_size m.arrays with
  | .error e => .error e
  | .ok scs => .ok (generate_combined { m with scannables := scs })

/-- HdfMap.get_address: an exact key of datasets or groups is returned
unchanged; then combined, then image_data; then the first address of the
classes entry (the Python [0] raises IndexError on an empty list); None when
nothing matches. -/
def get_address (m : HdfMap) (name_or_address : String) : Except String (Option String) :=
  if dcontains m.datasets name_or_address || dcontains m.groups name_or_address then
    .ok (some name_or_address)
  else match dlookup m.combined name_or_address with
  | some a => .ok (some a)
  | none =>
    match dlookup m.image_data name_or_address with
    | some a => .ok (some a)
    | none =>
      match dlookup m.classes name_or_address with
      | some (a :: _) => .ok (some a)
      | some [] => .error "IndexError"
      | none => .ok none

/-- HdfMap.get_data: resolve the address; when the result is truthy and present
in the open file, read the requested slice, otherwise return the default.  The
open file is a list of (address, dataset) pairs whose datasets are read at an
abstract index type. -/
def get_data {ι υ : Type} (m : HdfMap) (hdf_file : List (String × (ι → υ)))
    (name_or_address : String) (index : ι) (default : υ) : Except String υ :=
  match get_address m name_or_address with
  | .error e => .error e
  | .ok none => .ok default
  | .ok (some address) =>
    if address == "" then .ok default
    else match dlookup hdf_file address with
    | some ds => .ok (ds index)
    | none => .ok default

/-- A minimal numpy array model: a shape and flat contents. -/
structure NDArray where
  shape : List Nat
  flat : List Int
  deriving DecidableEq

/-- numpy squeeze: drop every singleton dimension. -/
def NDArray.squeeze (a : NDArray) : NDArray :=
  { shape := a.shape.filter (fun d => d != 1), flat := a.flat }

/-- HdfMap.scannables_length: 0 when scannables is empty, else shape[0] of the
dataset record of the first scannable (KeyError and IndexError mirror the
Python subscript failures). -/
def scannables_length (m : HdfMap) : Except String Nat :=
  match m.scannables with
  | [] => .ok 0
  | (_, address) :: _ =>
    match dlookup m.datasets address with
    | none => .error "KeyError"
    | some (_, _, shape, _) =>
      match shape with
      | [] => .error "IndexError"
      | s :: _ => .ok s

/-- HdfMap.get_image_address: the default image address when truthy, else the
first value of image_data, else None. -/
def get_image_address (m : HdfMap) : Option String :=
  match m.default_image_address with
  | some a =>
    if a == "" then
      match m.image_data with
      | [] => none
      | p :: _ => some p.2
    else some a
  | none =>
    match m.image_data with
    | [] => none
    | p :: _ => some p.2

/-- NexusMap.get_image_address: only the image_data entry stored under
'NXdetector'; the explicitly set default image address is never consulted. -/
def nexus_get_image_address (m : HdfMap) : Option String :=
  dlookup m.image_data "NXdetector"

/-- HdfMap.get_image with the image-address resolution passed in (dynamic
dispatch: NexusMap overrides get_image_address): a None index becomes
scannables_length() // 2, the resolved address is read when truthy and present
in the file, and the frame is squeezed; otherwise nothing is returned. -/
def get_image_with (resolve : HdfMap → Option String) (m : HdfMap)
    (hdf_file : List (String × (Nat → NDArray))) (index : Option Nat) :
    Except String (Option NDArray) :=
  let idxE : Except String Nat :=
    match index with
    | some i => .ok i
    | none =>
      match scannables_length m with
      | .error e => .error e
      | .ok len => .ok (len / 2)
  match idxE with
  | .error e => .error e
  | .ok idx =>
    match resolve m with
    | none => .ok none
    | some address =>
      if address == "" then .ok none
      else match dlookup hdf_file address with
      | none => .ok none
      | some ds => .ok (some ((ds idx).squeeze))

/-- get_image on a plain HdfMap. -/
def get_image (m : HdfMap) (hdf_file : List (String × (Nat → NDArray)))
    (index : Option Nat) : Except String (Option NDArray) :=
  get_image_with get_image_address m hdf_file index

/-- get_image on a NexusMap. -/
def nexus_get_image (m : HdfMap) (hdf_file : List (String × (Nat → NDArray)))
    (index : Option Nat) : Except String (Option NDArray) :=
  get_image_with nexus_get_image_address m hdf_file index

/-- Valid HDF child keys as h5py yields them: nonempty and free of the
separator. -/
def wfKey (k : String) : Bool := !k.data.isEmpty && !k.data.contains '/'

/-- Every key of a hierarchy is a valid HDF child key. -/
def wfChildren : HTree → Bool
  | .cnil => true
  | .cbroken key rest => wfKey key && wfChildren rest
  | .cdataset key _ _ _ rest => wfKey key && wfChildren rest
  | .cgroup key _ kids rest => wfKey key && wfChildren kids && wfChildren rest

/-- An address that starts with the separator and does not end with it. -/
def GoodAddr (A : String) : Prop :=
  A.data.head? = some '/' ∧ A.data.getLast? ≠ some '/'

/-- The top addresses occurring during traversal: the empty root or an address
starting with the separator. -/
def TopOK (top : String) : Prop := top = "" ∨ top.data.head? = some '/'

/-- Every classes list is nonempty (true of every traversal-produced map). -/
def classesWF (m : HdfMap) : Bool := m.classes.all (fun p => !p.2.isEmpty)

/-! ### Dictionary lemmas -/

theorem dlookup_dinsert {α : Type} (d : List (String × α)) (k k' : String) (v : α) :
    dlookup (dinsert d k v) k' = if k = k' then some v else dlookup d k' := by
  induction d with
  | nil => simp [dinsert, dlookup]
  | cons p rest ih =>
    by_cases h : p.1 = k
    · subst h
      by_cases h' : p.1 = k' <;> simp [dinsert, dlookup, h']
    · by_cases h' : p.1 = k'
      · have hkk : k ≠ k' := fun e => h (e ▸ h'.symm ▸ rfl)
        simp [dinsert, dlookup, h, h', hkk, Ne.symm hkk]
      · by_cases h'' : k = k'
        · subst h''
          simp [dinsert, dlookup, h, h', ih]
        · simp [dinsert, dlookup, h, h', h'', ih]

theorem dlookup_eq_none_of_not_mem {α : Type} (d : List (String × α)) (k : String)
    (h : k ∉ d.map Prod.fst) : dlookup d k = none := by
  induction d with
  | nil => rfl
  | cons p rest ih =>
    simp only [List.map_cons, List.mem_cons] at h
    push_neg at h
    have hne : p.1 ≠ k := fun e => h.1 e.symm
    simp [dlookup, hne, ih h.2]

theorem dlookup_dmerge {α : Type} (a b : List (String × α)) (k : String)
    (hb : nodupKeys b) :
    dlookup (dmerge a b) k = (dlookup b k).or (dlookup a k) := by
  induction b generalizing a with
  | nil => simp [dmerge, dlookup]
  | cons p rest ih =>
    have hb' : nodupKeys rest := by
      simpa [nodupKeys] using (List.nodup_cons.mp hb).2
    have hnm : p.1 ∉ rest.map Prod.fst := (List.nodup_cons.mp hb).1
    have hstep : dmerge a (p :: rest) = dmerge (dinsert a p.1 p.2) rest := rfl
    rw [hstep, ih _ hb']
    by_cases hk : p.1 = k
    · subst hk
      rw [dlookup_eq_none_of_not_mem rest p.1 hnm]
      simp [dlookup, dlookup_dinsert]
    · simp [dlookup, hk, dlookup_dinsert]

theorem dlookup_dinsert2_left {α : Type} (d : List (String × α)) (k1 k2 : String) (v : α) :
    dlookup (dinsert (dinsert d k1 v) k2 v) k1 = some v := by
  rw [dlookup_dinsert, dlookup_dinsert]
  by_cases h : k2 = k1 <;> simp [h]

theorem dlookup_dinsert2_right {α : Type} (d : List (String × α)) (k1 k2 : String) (v : α) :
    dlookup (dinsert (dinsert d k1 v) k2 v) k2 = some v := by
  rw [dlookup_dinsert]
  simp

theorem dcontains_dinsert_cases {α : Type} (d : List (String × α)) (k A : String) (v : α)
    (h : dcontains (dinsert d k v) A = true) : A = k ∨ dcontains d A = true := by
  unfold dcontains at h ⊢
  rw [dlookup_dinsert] at h
  by_cases hk : k = A
  · exact Or.inl hk.symm
  · rw [if_neg hk] at h
    exact Or.inr h

theorem classes_nonempty_of_wf (cls : List (String × List String))
    (hwf : cls.all (fun p => !p.2.isEmpty) = true) (n : String)
    (l : List String) (h : dlookup cls n = some l) : l ≠ [] := by
  induction cls with
  | nil => simp [dlookup] at h
  | cons p rest ih =>
    simp only [List.all_cons, Bool.and_eq_true] at hwf
    by_cases hk : p.1 = n
    · simp only [dlookup, hk] at h
      simp at h
      subst h
      intro hnil
      rw [hnil] at hwf
      simp at hwf
    · simp only [dlookup, hk] at h
      simp only [beq_iff_eq, hk, if_false] at h
      exact ih hwf.2 h

/-! ### Claim theorems -/

/-- Claim C1 (code-bug evidence): on an address whose last segment is "value"
the name-derivation function returns "value", not the parent segment "energy":
the source's conditional returns split(SEP)[-1] in both branches, so the
special case is a no-op.  Dots are replaced by underscores as claimed. -/
theorem claim_C1_value_name :
    address2name "/entry/energy/value" = "value" ∧
    address2name "/entry/energy/value" ≠ "energy" ∧
    address2name "/entry/mono.en" = "mono_en" := by
  refine ⟨rfl, by decide, rfl⟩

/-- Claim C3: get_address resolves in order datasets/groups exact key (returned
unchanged), then combined, then image_data, then the head of the classes entry;
with every classes list nonempty (as traversal guarantees) it never raises, and
returns none when no stage matches. -/
theorem claim_C3_resolution_order (m : HdfMap) (n : String) (hwf : classesWF m = true) :
    ((dcontains m.datasets n || dcontains m.groups n) = true →
      get_address m n = .ok (some n)) ∧
    ((dcontains m.datasets n || dcontains m.groups n) = false →
      ∀ a, dlookup m.combined n = some a → get_address m n = .ok (some a)) ∧
    ((dcontains m.datasets n || dcontains m.groups n) = false →
      dlookup m.combined n = none →
      ∀ a, dlookup m.image_data n = some a → get_address m n = .ok (some a)) ∧
    ((dcontains m.datasets n || dcontains m.groups n) = false →
      dlookup m.combined n = none → dlookup m.image_data n = none →
      ∀ a t, dlookup m.classes n = some (a :: t) → get_address m n = .ok (some a)) ∧
    ((dcontains m.datasets n || dcontains m.groups n) = false →
      dlookup m.combined n = none → dlookup m.image_data n = none →
      dlookup m.classes n = none → get_address m n = .ok none) ∧
    (∃ r, get_address m n = .ok r) := by
  refine ⟨?_, ?_, ?_, ?_, ?_, ?_⟩
  · intro h; simp [get_address, h]
  · intro h a ha; simp [get_address, h, ha]
  · intro h hc a ha; simp [get_address, h, hc, ha]
  · intro h hc hi a t hcl; simp [get_address, h, hc, hi, hcl]
  · intro h hc hi hcl; simp [get_address, h, hc, hi, hcl]
  · unfold get_address
    by_cases h : (dcontains m.datasets n || dcontains m.groups n) = true
    · rw [if_pos h]; exact ⟨some n, rfl⟩
    · rw [if_neg h]
      cases hc : dlookup m.combined n with
      | some a => exact ⟨some a, rfl⟩
      | none =>
        cases hi : dlookup m.image_data n with
        | some a => exact ⟨some a, rfl⟩
        | none =>
          cases hcl : dlookup m.classes n with
          | none => exact ⟨none, rfl⟩
          | some l =>
            cases l with
            | nil => exact absurd rfl (classes_nonempty_of_wf m.classes hwf n [] hcl)
            | cons a t => exact ⟨some a, rfl⟩

/-- Witness for claim C3 at a concrete map and input. -/
theorem claim_C3_witness :
    get_address { HdfMap.init with
      datasets := [("/entry/d", ("d", 1, [], []))]
      classes := [("NXentry", ["/entry"])] } "/entry/d" = .ok (some "/entry/d") :=
  (claim_C3_resolution_order _ "/entry/d" (by decide)).1 (by decide)

/-- Claim C4: after generate_combined, a name in both values and arrays (but not
scannables) maps to the arrays address, and a name in scannables maps to the
scannables address: the later-merged dictionary wins every collision. -/
theorem claim_C4_combined_precedence (m : HdfMap) (n av aa : String)
    (ha : nodupKeys m.arrays) (hs : nodupKeys m.scannables) :
    (dlookup m.values n = some av → dlookup m.arrays n = some aa →
      dlookup m.scannables n = none →
      dlookup (generate_combined m).combined n = some aa) ∧
    (∀ sa, dlookup m.scannables n = some sa →
      dlookup (generate_combined m).combined n = some sa) := by
  have hc : dlookup (generate_combined m).combined n =
      (dlookup m.scannables n).or ((dlookup m.arrays n).or (dlookup m.values n)) := by
    show dlookup (dmerge (dmerge m.values m.arrays) m.scannables) n = _
    rw [dlookup_dmerge _ _ _ hs, dlookup_dmerge _ _ _ ha]
  constructor
  · intro h1 h2 h3
    rw [hc, h3, h2]
    rfl
  · intro sa hsa
    rw [hc, hsa]
    rfl

/-- Witness for claim C4 at concrete maps realising both kinds of collision. -/
theorem claim_C4_witness :
    dlookup (generate_combined { HdfMap.init with
      values := [("x", "/v/x")]
      arrays := [("x", "/a/x")] }).combined "x" = some "/a/x" ∧
    dlookup (generate_combined { HdfMap.init with
      values := [("x", "/v/x")]
      arrays := [("x", "/a/x")]
      scannables := [("x", "/s/x")] }).combined "x" = some "/s/x" :=
  ⟨(claim_C4_combined_precedence _ "x" "/v/x" "/a/x"
      (by simp [nodupKeys, HdfMap.init]) (by simp [nodupKeys, HdfMap.init])).1
      rfl rfl rfl,
   (claim_C4_combined_precedence { HdfMap.init with
      values := [("x", "/v/x")]
      arrays := [("x", "/a/x")]
      scannables := [("x", "/s/x")] } "x" "/v/x" "/a/x"
      (by simp [nodupKeys, HdfMap.init]) (by simp [nodupKeys])).2 "/s/x" rfl⟩

/-- Claim C5: _store_dataset records the DatasetRecord and classifies by
dimensionality: 0-dimensional into values, 1- or 2-dimensional into arrays,
3-or-more-dimensional into both arrays and image_data, image_data being keyed by
the bare name and the parent-group-qualified compound name, and values/arrays
being keyed by both name and altname. -/
theorem claim_C5_store_dataset (m : HdfMap) (address name altname : String)
    (shape : List Nat) (attrs : List (String × String)) (m' : HdfMap)
    (hm' : m' = store_dataset m address name altname shape attrs) :
    (shape.length = 0 →
      dlookup m'.values name = some address ∧ dlookup m'.values altname = some address ∧
      m'.arrays = m.arrays ∧ m'.image_data = m.image_data) ∧
    (shape.length = 1 ∨ shape.length = 2 →
      dlookup m'.arrays name = some address ∧ dlookup m'.arrays altname = some address ∧
      m'.values = m.values ∧ m'.image_data = m.image_data) ∧
    (3 ≤ shape.length →
      dlookup m'.arrays name = some address ∧ dlookup m'.arrays altname = some address ∧
      dlookup m'.image_data name = some address ∧
      dlookup m'.image_data (det_name address name) = some address ∧
      m'.values = m.values) ∧
    dlookup m'.datasets address =
      some (name, shape.foldl (fun a b => a * b) 1, shape, attrs) := by
  subst hm'
  refine ⟨?_, ?_, ?_, ?_⟩
  · intro h0
    simp [store_dataset, h0, dlookup_dinsert2_left, dlookup_dinsert2_right]
  · intro h12
    have h3 : ¬ 3 ≤ shape.length := by rcases h12 with h | h <;> omega
    have hpos : 0 < shape.length := by rcases h12 with h | h <;> omega
    simp [store_dataset, h3, hpos, dlookup_dinsert2_left, dlookup_dinsert2_right]
  · intro h3
    simp [store_dataset, h3, dlookup_dinsert2_left, dlookup_dinsert2_right]
  · by_cases h3 : 3 ≤ shape.length
    · simp [store_dataset, h3, dlookup_dinsert]
    · by_cases hpos : 0 < shape.length <;>
        simp [store_dataset, h3, hpos, dlookup_dinsert]

/-- Witness for claim C5 on a three-dimensional dataset. -/
theorem claim_C5_witness :
    dlookup (store_dataset HdfMap.init "/entry/det/data" "data" "localdata"
        [2, 3, 4] []).image_data (det_name "/entry/det/data" "data")
      = some "/entry/det/data" ∧
    dlookup (store_dataset HdfMap.init "/entry/det/data" "data" "localdata"
        [2, 3, 4] []).arrays "localdata" = some "/entry/det/data" ∧
    det_name "/entry/det/data" "data" = "det_data" :=
  ⟨((claim_C5_store_dataset HdfMap.init "/entry/det/data" "data" "localdata"
      [2, 3, 4] [] _ rfl).2.2.1 (by decide)).2.2.2.1,
   ((claim_C5_store_dataset HdfMap.init "/entry/det/data" "data" "localdata"
      [2, 3, 4] [] _ rfl).2.2.1 (by decide)).2.1,
   by decide⟩

/-- Claim C6: get_data reads the requested slice when the resolved address is
present in the open file, and returns the supplied default both when the name
does not resolve and when the resolved address is absent from the file (schema
drift), without raising. -/
theorem claim_C6_get_data_default (ι υ : Type) (m : HdfMap)
    (hdf_file : List (String × (ι → υ))) (n : String) (index : ι) (dflt : υ) :
    (∀ a ds, get_address m n = .ok (some a) → a ≠ "" →
      dlookup hdf_file a = some ds →
      get_data m hdf_file n index dflt = .ok (ds index)) ∧
    (get_address m n = .ok none → get_data m hdf_file n index dflt = .ok dflt) ∧
    (∀ a, get_address m n = .ok (some a) → dlookup hdf_file a = none →
      get_data m hdf_file n index dflt = .ok dflt) := by
  refine ⟨?_, ?_, ?_⟩
  · intro a ds ha hne hds
    simp [get_data, ha, hne, hds]
  · intro ha
    simp [get_data, ha]
  · intro a ha hnone
    by_cases he : a = ""
    · simp [get_data, ha, he]
    · simp [get_data, ha, he, hnone]

/-- Witness for claim C6: a present dataset is read; the same name against a
file without the address yields the default. -/
theorem claim_C6_witness :
    get_data { HdfMap.init with combined := [("en", "/entry/en")] }
        [("/entry/en", fun _ : Nat => (7 : Int))] "en" 0 (0 : Int) = .ok 7 ∧
    get_data { HdfMap.init with combined := [("en", "/entry/en")] }
        ([] : List (String × (Nat → Int))) "en" 0 (99 : Int) = .ok 99 :=
  ⟨(claim_C6_get_data_default Nat Int
      { HdfMap.init with combined := [("en", "/entry/en")] }
      [("/entry/en", fun _ : Nat => (7 : Int))] "en" 0 0).1 "/entry/en" _ rfl
      (by decide) rfl,
   (claim_C6_get_data_default Nat Int
      { HdfMap.init with combined := [("en", "/entry/en")] }
      ([] : List (String × (Nat → Int))) "en" 0 99).2.2 "/entry/en" rfl rfl⟩

/-- Claim C7: a broken-link entry anywhere in a sibling list is skipped without
affecting traversal, and the concrete two-entry group (one dataset, one dangling
link) yields exactly one DatasetRecord. -/
theorem claim_C7_broken_links :
    (∀ (t₁ t₂ : HTree) (k top : String) (m : HdfMap) (r : Bool)
        (gfilter : Option (List String)),
      popChildren m (t₁.append (.cbroken k t₂)) top r gfilter =
        popChildren m (t₁.append t₂) top r gfilter) ∧
    (populate HdfMap.init
        (.cgroup "g" [] (.cdataset "a" [5] [] false (.cbroken "b" .cnil))
          .cnil)).datasets.length = 1 := by
  constructor
  · intro t₁ t₂ k top m r gfilter
    induction t₁ generalizing m top r gfilter with
    | cnil => rfl
    | cbroken k' rest ih =>
      simp only [HTree.append, popChildren]
      exact ih top m r gfilter
    | cdataset k' sh ats so rest ih =>
      simp only [HTree.append, popChildren]
      exact ih top _ r gfilter
    | cgroup k' ga kids rest ih₁ ih₂ =>
      simp only [HTree.append, popChildren]
      exact ih₂ top _ r gfilter
  · rfl

/-- Claim C10: generate_scannables only modifies the scannables and combined
dictionaries: every other dictionary and the default image address are
untouched. -/
theorem claim_C10_generate_scannables_frame (m : HdfMap) (array_size : Nat)
    (m' : HdfMap) (h : generate_scannables m array_size = .ok m') :
    m'.groups = m.groups ∧ m'.classes = m.classes ∧ m'.datasets = m.datasets ∧
    m'.arrays = m.arrays ∧ m'.values = m.values ∧ m'.image_data = m.image_data ∧
    m'.default_image_address = m.default_image_address := by
  unfold generate_scannables at h
  cases hsf : scanFilter m array_size m.arrays with
  | error e =>
    rw [hsf] at h
    exact Except.noConfusion h
  | ok scs =>
    rw [hsf] at h
    simp only [Except.ok.injEq] at h
    subst h
    exact ⟨rfl, rfl, rfl, rfl, rfl, rfl, rfl⟩

/-- Witness for claim C10 at a concrete map. -/
theorem claim_C10_witness :
    (generate_combined HdfMap.init).groups = HdfMap.init.groups ∧
    (generate_combined HdfMap.init).classes = HdfMap.init.classes ∧
    (generate_combined HdfMap.init).datasets = HdfMap.init.datasets ∧
    (generate_combined HdfMap.init).arrays = HdfMap.init.arrays ∧
    (generate_combined HdfMap.init).values = HdfMap.init.values ∧
    (generate_combined HdfMap.init).image_data = HdfMap.init.image_data ∧
    (generate_combined HdfMap.init).default_image_address
      = HdfMap.init.default_image_address :=
  claim_C10_generate_scannables_frame HdfMap.init 5 (generate_combined HdfMap.init) rfl

/-- Claim C8 counterexample: a NexusMap state with an explicitly set default
image address still resolves its image address to the NXdetector entry of
image_data: the Nexus override of get_image_address never consults the
explicitly set address, so the override does not take precedence on every Map. -/
theorem claim_C8_counterexample :
    ({ HdfMap.init with
        default_image_address := some "/override"
        image_data := [("NXdetector", "/entry/det/data")] } : HdfMap).default_image_address
      = some "/override" ∧
    nexus_get_image_address { HdfMap.init with
        default_image_address := some "/override"
        image_data := [("NXdetector", "/entry/det/data")] } = some "/entry/det/data" ∧
    ("/entry/det/data" : String) ≠ "/override" :=
  ⟨rfl, rfl, by decide⟩

/-- Claim C8 (amended): get_image with a None index reads the middle frame
scannables_length() // 2; the base HdfMap resolution uses the explicitly set
(truthy) override first and otherwise the first image_data entry, while the
NexusMap resolution is insensitive to the override; a resolved present frame is
read and squeezed (no singleton dimension survives), and nothing is returned
when no address resolves or the address is absent from the handle. -/
theorem claim_C8_get_image_amended :
    (∀ (resolve : HdfMap → Option String) (m : HdfMap)
        (hdf_file : List (String × (Nat → NDArray))) (L : Nat),
      scannables_length m = .ok L →
      get_image_with resolve m hdf_file none =
        get_image_with resolve m hdf_file (some (L / 2))) ∧
    (∀ (m : HdfMap) (a : String), m.default_image_address = some a → a ≠ "" →
      get_image_address m = some a) ∧
    (∀ (m : HdfMap) (p : String × String) (rest : List (String × String)),
      (m.default_image_address = none ∨ m.default_image_address = some "") →
      m.image_data = p :: rest → get_image_address m = some p.2) ∧
    (∀ (m : HdfMap) (o : Option String),
      nexus_get_image_address { m with default_image_address := o } =
        nexus_get_image_address m) ∧
    (∀ (resolve : HdfMap → Option String) (m : HdfMap)
        (hdf_file : List (String × (Nat → NDArray))) (i : Nat) (a : String)
        (ds : Nat → NDArray),
      resolve m = some a → a ≠ "" → dlookup hdf_file a = some ds →
      get_image_with resolve m hdf_file (some i) = .ok (some ((ds i).squeeze))) ∧
    (∀ arr : NDArray, (1 : Nat) ∉ arr.squeeze.shape) ∧
    (∀ (resolve : HdfMap → Option String) (m : HdfMap)
        (hdf_file : List (String × (Nat → NDArray))) (i : Nat),
      resolve m = none → get_image_with resolve m hdf_file (some i) = .ok none) ∧
    (∀ (resolve : HdfMap → Option String) (m : HdfMap)
        (hdf_file : List (String × (Nat → NDArray))) (i : Nat) (a : String),
      resolve m = some a → dlookup hdf_file a = none →
      get_image_with resolve m hdf_file (some i) = .ok none) := by
  refine ⟨?_, ?_, ?_, ?_, ?_, ?_, ?_, ?_⟩
  · intro resolve m hdf_file L hL
    simp [get_image_with, hL]
  · intro m a hda hne
    simp [get_image_address, hda, hne]
  · intro m p rest hd hi
    rcases hd with hd | hd <;> simp [get_image_address, hd, hi]
  · intro m o
    rfl
  · intro resolve m hdf_file i a ds hra hne hds
    simp [get_image_with, hra, hne, hds]
  · intro arr
    simp [NDArray.squeeze]
  · intro resolve m hdf_file i hra
    simp [get_image_with, hra]
  · intro resolve m hdf_file i a hra hnone
    by_cases he : a = ""
    · simp [get_image_with, hra, he]
    · simp [get_image_with, hra, he, hnone]

/-- Witness for claim C8 (amended): the base resolution uses the override, and
the frame read at a concrete index is squeezed. -/
theorem claim_C8_witness :
    get_image_address { HdfMap.init with
      default_image_address := some "/det/data" } = some "/det/data" ∧
    get_image_with get_image_address
      { HdfMap.init with default_image_address := some "/det/data" }
      [("/det/data", fun _ => { shape := [1, 5], flat := [1, 2, 3, 4, 5] })]
      (some 0) = .ok (some { shape := [5], flat := [1, 2, 3, 4, 5] }) :=
  ⟨(claim_C8_get_image_amended).2.1
      { HdfMap.init with default_image_address := some "/det/data" }
      "/det/data" rfl (by decide),
   (claim_C8_get_image_amended).2.2.2.2.1 get_image_address
      { HdfMap.init with default_image_address := some "/det/data" }
      [("/det/data", fun _ => { shape := [1, 5], flat := [1, 2, 3, 4, 5] })]
      0 "/det/data" _ rfl (by decide) rfl⟩

/-- Claim C9 counterexample: with filter ["entry"] the second-level group
"hidden" matches the filter neither by key nor by class-tag, yet traversal still
recurses into it and records its dataset: the filter is not applied at every
level. -/
theorem claim_C9_counterexample :
    (["entry"].contains "hidden" = false ∧ ["entry"].contains "NXother" = false) ∧
    dcontains (popChildren HdfMap.init
        (.cgroup "entry" [("NX_class", "NXentry")]
          (.cgroup "hidden" [("NX_class", "NXother")]
            (.cdataset "d" [2] [] false .cnil) .cnil)
          .cnil)
        "" true (some ["entry"])).datasets "/entry/hidden/d" = true := by
  exact ⟨⟨rfl, rfl⟩, by decide⟩

/-- Claim C9 (amended): with a nonempty group filter, recursion into a child
group at the level where the filter is supplied happens exactly when recursion
is enabled and the child's key or class-tag is in the filter; the recursive
call passes no filter, so below that level recursion is unconditional. -/
theorem claim_C9_filter_amended (gs : List String) (hne : gs ≠ []) (r : Bool) :
    (dcontains (popChildren HdfMap.init
        (.cgroup "sub" [("NX_class", "NXthing")]
          (.cdataset "d" [3] [] false .cnil) .cnil)
        "" r (some gs)).datasets "/sub/d"
      = (r && (gs.contains "sub" || gs.contains "NXthing"))) ∧
    (gs.contains "sub" = true →
      dcontains (popChildren HdfMap.init
        (.cgroup "sub" [("NX_class", "NXthing")]
          (.cgroup "deep" [("NX_class", "NXother")]
            (.cdataset "d" [3] [] false .cnil) .cnil)
          .cnil)
        "" true (some gs)).datasets "/sub/deep/d" = true) := by
  obtain ⟨g, t, rfl⟩ : ∃ g t, gs = g :: t := by
    cases gs with
    | nil => exact absurd rfl hne
    | cons g t => exact ⟨g, t, rfl⟩
  constructor
  · have hstep : popChildren HdfMap.init
        (.cgroup "sub" [("NX_class", "NXthing")]
          (.cdataset "d" [3] [] false .cnil) .cnil)
        "" r (some (g :: t)) =
        (if r && ((g :: t).contains "sub" || (g :: t).contains "NXthing") then
          popChildren (store_group HdfMap.init ("" ++ SEP ++ "sub")
              (address2name ("" ++ SEP ++ "sub")) [("NX_class", "NXthing")]
              (.cdataset "d" [3] [] false .cnil)).1
            (.cdataset "d" [3] [] false .cnil) ("" ++ SEP ++ "sub") r none
        else (store_group HdfMap.init ("" ++ SEP ++ "sub")
            (address2name ("" ++ SEP ++ "sub")) [("NX_class", "NXthing")]
            (.cdataset "d" [3] [] false .cnil)).1) := rfl
    rw [hstep]
    cases r with
    | false =>
      simp only [Bool.false_and]
      decide
    | true =>
      cases hb : ((g :: t).contains "sub" || (g :: t).contains "NXthing") with
      | false => decide
      | true => decide
  · intro hsub
    have hstep : popChildren HdfMap.init
        (.cgroup "sub" [("NX_class", "NXthing")]
          (.cgroup "deep" [("NX_class", "NXother")]
            (.cdataset "d" [3] [] false .cnil) .cnil)
          .cnil)
        "" true (some (g :: t)) =
        (if true && ((g :: t).contains "sub" || (g :: t).contains "NXthing") then
          popChildren (store_group HdfMap.init ("" ++ SEP ++ "sub")
              (address2name ("" ++ SEP ++ "sub")) [("NX_class", "NXthing")]
              (.cgroup "deep" [("NX_class", "NXother")]
                (.cdataset "d" [3] [] false .cnil) .cnil)).1
            (.cgroup "deep" [("NX_class", "NXother")]
              (.cdataset "d" [3] [] false .cnil) .cnil)
            ("" ++ SEP ++ "sub") true none
        else (store_group HdfMap.init ("" ++ SEP ++ "sub")
            (address2name ("" ++ SEP ++ "sub")) [("NX_class", "NXthing")]
            (.cgroup "deep" [("NX_class", "NXother")]
              (.cdataset "d" [3] [] false .cnil) .cnil)).1) := rfl
    rw [hstep, hsub]
    simp only [Bool.true_or, Bool.true_and]
    decide

/-- Witness for claim C9 (amended) at the concrete filter ["sub"]. -/
theorem claim_C9_witness :
    dcontains (popChildren HdfMap.init
        (.cgroup "sub" [("NX_class", "NXthing")]
          (.cdataset "d" [3] [] false .cnil) .cnil)
        "" true (some ["sub"])).datasets "/sub/d"
      = (true && (["sub"].contains "sub" || ["sub"].contains "NXthing")) ∧
    dcontains (popChildren HdfMap.init
        (.cgroup "sub" [("NX_class", "NXthing")]
          (.cgroup "deep" [("NX_class", "NXother")]
            (.cdataset "d" [3] [] false .cnil) .cnil)
          .cnil)
        "" true (some ["sub"])).datasets "/sub/deep/d" = true :=
  ⟨(claim_C9_filter_amended ["sub"] (by decide) true).1,
   (claim_C9_filter_amended ["sub"] (by decide) true).2 (by decide)⟩

/-! ### Traversal address invariants (claim C2) -/

theorem goodAddr_build (top key : String) (htop : TopOK top) (hkey : wfKey key = true) :
    GoodAddr (top ++ SEP ++ key) := by
  simp only [wfKey, Bool.and_eq_true, Bool.not_eq_true'] at hkey
  have hk1 : key.data ≠ [] := by
    intro he
    have h1 := hkey.1
    rw [he] at h1
    simp at h1
  have hk2 : '/' ∉ key.data := by
    intro hm
    have h1 : key.data.contains '/' = true := List.elem_eq_true_of_mem hm
    rw [hkey.2] at h1
    exact Bool.noConfusion h1
  have hdata : (top ++ SEP ++ key).data = top.data ++ '/' :: key.data := by
    rw [String.data_append, String.data_append, List.append_assoc]
    rfl
  constructor
  · rcases htop with h | h
    · subst h
      rw [hdata]
      rfl
    · rw [hdata, List.head?_append, h]
      rfl
  · rw [hdata, List.getLast?_append]
    cases hkdd : key.data with
    | nil => exact absurd hkdd hk1
    | cons c cs =>
      rw [List.getLast?_cons_cons]
      cases hlast : (c :: cs).getLast? with
      | none => simp at hlast
      | some x =>
        have hx : x ∈ c :: cs := List.mem_of_getLast?_eq_some hlast
        have hxne : x ≠ '/' := by
          intro he
          subst he
          apply hk2
          rw [hkdd]
          exact hx
        intro hcontra
        rw [show (some x).or top.data.getLast? = some x from rfl] at hcontra
        exact hxne (Option.some.inj hcontra)

theorem store_dataset_groups_eq (m : HdfMap) (address name altname : String)
    (shape : List Nat) (attrs : List (String × String)) :
    (store_dataset m address name altname shape attrs).groups = m.groups := by
  unfold store_dataset
  by_cases h3 : 3 ≤ shape.length
  · simp [h3]
  · by_cases hp : 0 < shape.length <;> simp [h3, hp]

theorem store_dataset_datasets_cases (m : HdfMap) (address name altname : String)
    (shape : List Nat) (attrs : List (String × String)) (A : String)
    (h : dcontains (store_dataset m address name altname shape attrs).datasets A = true) :
    A = address ∨ dcontains m.datasets A = true := by
  have hd : (store_dataset m address name altname shape attrs).datasets =
      dinsert m.datasets address (name, shape.foldl (fun a b => a * b) 1, shape, attrs) := by
    unfold store_dataset
    by_cases h3 : 3 ≤ shape.length
    · simp [h3]
    · by_cases hp : 0 < shape.length <;> simp [h3, hp]
  rw [hd] at h
  exact dcontains_dinsert_cases _ _ _ _ h

theorem store_group_datasets_eq (m : HdfMap) (address name : String)
    (gattrs : List (String × String)) (kids : HTree) :
    (store_group m address name gattrs kids).1.datasets = m.datasets := rfl

theorem store_group_groups_cases (m : HdfMap) (address name : String)
    (gattrs : List (String × String)) (kids : HTree) (A : String)
    (h : dcontains (store_group m address name gattrs kids).1.groups A = true) :
    A = address ∨ dcontains m.groups A = true :=
  dcontains_dinsert_cases _ _ _ _ h

theorem popChildren_goodAddr (cs : HTree) :
    ∀ (m : HdfMap) (top : String) (r : Bool) (f : Option (List String)),
      wfChildren cs = true → TopOK top →
      (∀ A, dcontains m.datasets A = true → GoodAddr A) →
      (∀ A, dcontains m.groups A = true → GoodAddr A) →
      (∀ A, dcontains (popChildren m cs top r f).datasets A = true → GoodAddr A) ∧
      (∀ A, dcontains (popChildren m cs top r f).groups A = true → GoodAddr A) := by
  induction cs with
  | cnil =>
    intro m top r f _ _ hd hg
    exact ⟨hd, hg⟩
  | cbroken key rest ih =>
    intro m top r f hwf htop hd hg
    simp only [wfChildren, Bool.and_eq_true] at hwf
    exact ih m top r f hwf.2 htop hd hg
  | cdataset key shape attrs soft rest ih =>
    intro m top r f hwf htop hd hg
    simp only [wfChildren, Bool.and_eq_true] at hwf
    cases soft with
    | true => exact ih m top r f hwf.2 htop hd hg
    | false =>
      have hred : popChildren m (.cdataset key shape attrs false rest) top r f =
          popChildren (store_dataset m (top ++ SEP ++ key)
            (address2name (top ++ SEP ++ key))
            (match dlookup attrs "local_name" with
              | some ln => address2name ln
              | none => address2name (top ++ SEP ++ key)) shape attrs) rest top r f := rfl
      rw [hred]
      refine ih _ top r f hwf.2 htop ?_ ?_
      · intro A hA
        rcases store_dataset_datasets_cases m (top ++ SEP ++ key) _ _ shape attrs A hA
          with h | h
        · subst h
          exact goodAddr_build top key htop hwf.1
        · exact hd A h
      · intro A hA
        rw [store_dataset_groups_eq] at hA
        exact hg A hA
  | cgroup key gattrs kids rest ihk ihr =>
    intro m top r f hwf htop hd hg
    simp only [wfChildren, Bool.and_eq_true] at hwf
    have haddr : GoodAddr (top ++ SEP ++ key) := goodAddr_build top key htop hwf.1.1
    have hd2 : ∀ A, dcontains (store_group m (top ++ SEP ++ key)
        (address2name (top ++ SEP ++ key)) gattrs kids).1.datasets A = true → GoodAddr A := by
      intro A hA
      rw [store_group_datasets_eq] at hA
      exact hd A hA
    have hg2 : ∀ A, dcontains (store_group m (top ++ SEP ++ key)
        (address2name (top ++ SEP ++ key)) gattrs kids).1.groups A = true → GoodAddr A := by
      intro A hA
      rcases store_group_groups_cases m _ _ gattrs kids A hA with h | h
      · subst h
        exact haddr
      · exact hg A h
    have hstep : popChildren m (.cgroup key gattrs kids rest) top r f =
        popChildren
          (if r && filterPass f key (store_group m (top ++ SEP ++ key)
              (address2name (top ++ SEP ++ key)) gattrs kids).2 then
            popChildren (store_group m (top ++ SEP ++ key)
              (address2name (top ++ SEP ++ key)) gattrs kids).1 kids
              (top ++ SEP ++ key) r none
          else (store_group m (top ++ SEP ++ key)
              (address2name (top ++ SEP ++ key)) gattrs kids).1)
          rest top r f := rfl
    rw [hstep]
    by_cases hcond : (r && filterPass f key (store_group m (top ++ SEP ++ key)
        (address2name (top ++ SEP ++ key)) gattrs kids).2) = true
    · rw [if_pos hcond]
      have hk := ihk (store_group m (top ++ SEP ++ key)
          (address2name (top ++ SEP ++ key)) gattrs kids).1 (top ++ SEP ++ key) r none
          hwf.1.2 (Or.inr haddr.1) hd2 hg2
      exact ihr _ top r f hwf.2 htop hk.1 hk.2
    · rw [if_neg hcond]
      exact ihr _ top r f hwf.2 htop hd2 hg2

/-- Claim C2: every address recorded by traversal in the datasets or groups
dictionaries starts with the separator, does not end with it, and get_address
returns it unchanged. -/
theorem claim_C2_address_roundtrip (root : HTree) (hwf : wfChildren root = true)
    (A : String)
    (hA : (dcontains (populate HdfMap.init root).datasets A
          || dcontains (populate HdfMap.init root).groups A) = true) :
    GoodAddr A ∧ get_address (populate HdfMap.init root) A = .ok (some A) := by
  have hinv := popChildren_goodAddr root HdfMap.init "" true none hwf (Or.inl rfl)
      (fun B hB => by simp [HdfMap.init, dcontains, dlookup] at hB)
      (fun B hB => by simp [HdfMap.init, dcontains, dlookup] at hB)
  constructor
  · rcases Bool.or_eq_true_iff.mp hA with h | h
    · exact hinv.1 A h
    · exact hinv.2 A h
  · simp [get_address, hA]

/-- Witness for claim C2 on a concrete two-level hierarchy. -/
theorem claim_C2_witness :
    GoodAddr "/entry/data" ∧
    get_address (populate HdfMap.init
        (.cgroup "entry" [] (.cdataset "data" [3] [] false .cnil) .cnil))
      "/entry/data" = .ok (some "/entry/data") :=
  claim_C2_address_roundtrip _ (by decide) "/entry/data" (by decide)
